import Mathlib

/-
Shallow embedding of the payapp-react library (TypeScript) and verification
of the webhook processor, dedup-key derivation, event classification, the
API caller's error contract and the form codec round trip.

Conventions of the embedding:
- TypeScript strings are Lean `String`, the numeric `pay_state` is `Int`.
- Optional record fields are `Option`.
- An async function that can reject is modelled by `TsOutcome` (the value it
  resolved with, or the error that escaped) together with the final mutable
  state and a trace of the user callbacks it invoked.
- A user-supplied handler is a function returning `Except String Unit`:
  `Except.error msg` models the handler throwing `msg`.
- The JavaScript `Set<string>` of processed keys is a `List String` with
  membership-guarded insertion.
-/

-- ============================================
-- Data model (src/types/index.ts)
-- ============================================

/-- `PayAppCredentials` from `types/index.ts`: the shared-secret triple. -/
structure PayAppCredentials where
  userid : String
  linkkey : String
  linkval : String
  deriving DecidableEq, Repr

/-- `PaymentFeedback` from `types/index.ts`, restricted to the fields the
webhook processor and the dedup key read (`userid`, `linkkey`, `linkval`,
`mul_no`, `price`, `pay_state`, `var1`, `var2`); the remaining passive
payload fields are never consulted by the verified operations. -/
structure PaymentFeedback where
  userid : String
  linkkey : String
  linkval : String
  mul_no : String
  price : String
  pay_state : Int
  var1 : Option String
  var2 : Option String
  deriving DecidableEq, Repr

-- ============================================
-- Webhook helpers (lib/client.ts)
-- ============================================

/-- `validateFeedback` from `lib/client.ts`: the embedded credential triple
must equal the configured credentials exactly. -/
def validateFeedback (feedback : PaymentFeedback)
    (credentials : PayAppCredentials) : Bool :=
  feedback.userid == credentials.userid &&
  feedback.linkkey == credentials.linkkey &&
  feedback.linkval == credentials.linkval

/-- `generateFeedbackKey` from `lib/client.ts`: the template literal
`mul_no_paystate_var1_var2` (a missing `var1`/`var2` renders as `""`,
matching the `|| ''` fallback; the numeric `pay_state` renders via
`toString`, matching JS number-to-string interpolation on integers). -/
def generateFeedbackKey (feedback : PaymentFeedback) : String :=
  feedback.mul_no ++ "_" ++ toString feedback.pay_state ++ "_" ++
    (feedback.var1.getD "") ++ "_" ++ (feedback.var2.getD "")

-- ============================================
-- Webhook processor (lib/webhook.ts)
-- ============================================

/-- `WebhookEventType` from `lib/webhook.ts` (the five string literals
`payment.requested | completed | cancelled | waiting | unknown`). -/
inductive WebhookEventType where
  | requested
  | completed
  | cancelled
  | waiting
  | unknown
  deriving DecidableEq, Repr

/-- Which user callback an execution of `process` invoked, in order. -/
inductive HandlerTag where
  | requested
  | completed
  | cancelled
  | waiting
  | errorCb
  deriving DecidableEq, Repr

/-- A user handler: may succeed or throw (reject) with a message. -/
abbrev HandlerFun := PaymentFeedback → Except String Unit

/-- `WebhookHandler` from `lib/webhook.ts`: one optional callback per event
category, plus the optional `onError(error, feedback?)` callback. -/
structure WebhookHandler where
  onPaymentRequested : Option HandlerFun
  onPaymentCompleted : Option HandlerFun
  onPaymentCancelled : Option HandlerFun
  onPaymentWaiting : Option HandlerFun
  onError : Option (String → Option PaymentFeedback → Except String Unit)

/-- Outcome of an async TypeScript call: the value it returned, or the
error that escaped it. -/
inductive TsOutcome (α : Type) where
  | returned (value : α)
  | threw (err : String)
  deriving DecidableEq, Repr

/-- One execution of `PayAppWebhookProcessor.process`: its outcome, the
processed-keys set the processor is left with, and the user callbacks it
invoked, in order. -/
structure ProcessRun where
  outcome : TsOutcome String
  processedKeys : List String
  invoked : List HandlerTag
  deriving DecidableEq, Repr

/-- `PayAppWebhookProcessor`'s fields: immutable credentials plus the
mutable `Set<string>` of processed keys. -/
structure PayAppWebhookProcessor where
  credentials : PayAppCredentials
  processedKeys : List String

/-- Method `validate` of `PayAppWebhookProcessor`. -/
def PayAppWebhookProcessor.validate (p : PayAppWebhookProcessor)
    (feedback : PaymentFeedback) : Bool :=
  validateFeedback feedback p.credentials

/-- Method `isDuplicate` of `PayAppWebhookProcessor`. -/
def PayAppWebhookProcessor.isDuplicate (p : PayAppWebhookProcessor)
    (feedback : PaymentFeedback) : Bool :=
  p.processedKeys.contains (generateFeedbackKey feedback)

/-- Method `markAsProcessed` of `PayAppWebhookProcessor` (`Set.add`). -/
def PayAppWebhookProcessor.markAsProcessed (p : PayAppWebhookProcessor)
    (feedback : PaymentFeedback) : PayAppWebhookProcessor :=
  { p with processedKeys := p.processedKeys.insert (generateFeedbackKey feedback) }

/-- Method `clearProcessedKeys` of `PayAppWebhookProcessor` (`Set.clear`). -/
def PayAppWebhookProcessor.clearProcessedKeys
    (p : PayAppWebhookProcessor) : PayAppWebhookProcessor :=
  { p with processedKeys := [] }

/-- Method `getEventType` of `PayAppWebhookProcessor`: the `switch` on
`feedback.pay_state`, embedded as the equivalent cascade of strict
equality tests. -/
def getEventType (feedback : PaymentFeedback) : WebhookEventType :=
  if feedback.pay_state = 1 then WebhookEventType.requested
  else if feedback.pay_state = 4 then WebhookEventType.completed
  else if feedback.pay_state = 8 ∨ feedback.pay_state = 9 ∨
      feedback.pay_state = 32 ∨ feedback.pay_state = 64 ∨
      feedback.pay_state = 70 ∨ feedback.pay_state = 71 then
    WebhookEventType.cancelled
  else if feedback.pay_state = 10 then WebhookEventType.waiting
  else WebhookEventType.unknown

/-- Step 4 of `process`: the `switch` on the event type that awaits the
single registered handler for the category, if any (the `unknown` branch
only logs). Returns the dispatch outcome and which handler ran. -/
def dispatchHandler (handlers : WebhookHandler) (eventType : WebhookEventType)
    (feedback : PaymentFeedback) : Except String Unit × List HandlerTag :=
  match eventType with
  | WebhookEventType.requested =>
    match handlers.onPaymentRequested with
    | some h => (h feedback, [HandlerTag.requested])
    | none => (Except.ok (), [])
  | WebhookEventType.completed =>
    match handlers.onPaymentCompleted with
    | some h => (h feedback, [HandlerTag.completed])
    | none => (Except.ok (), [])
  | WebhookEventType.cancelled =>
    match handlers.onPaymentCancelled with
    | some h => (h feedback, [HandlerTag.cancelled])
    | none => (Except.ok (), [])
  | WebhookEventType.waiting =>
    match handlers.onPaymentWaiting with
    | some h => (h feedback, [HandlerTag.waiting])
    | none => (Except.ok (), [])
  | WebhookEventType.unknown => (Except.ok (), [])

/-- The `catch` block of `process`: await `handlers.onError(error, feedback)`
when registered (an error thrown by `onError` itself escapes `process`),
then return `"ERROR"`. The processed-keys set is never touched here. -/
def handleProcessError (p : PayAppWebhookProcessor) (feedback : PaymentFeedback)
    (handlers : WebhookHandler) (err : String)
    (invoked : List HandlerTag) : ProcessRun :=
  match handlers.onError with
  | some onErr =>
    match onErr err (some feedback) with
    | Except.ok _ =>
      ⟨TsOutcome.returned "ERROR", p.processedKeys, invoked ++ [HandlerTag.errorCb]⟩
    | Except.error e2 =>
      ⟨TsOutcome.threw e2, p.processedKeys, invoked ++ [HandlerTag.errorCb]⟩
  | none => ⟨TsOutcome.returned "ERROR", p.processedKeys, invoked⟩

/-- Method `process` of `PayAppWebhookProcessor`: validate, short-circuit
duplicates to `"SUCCESS"`, classify, dispatch, and mark processed only
after a dispatch that did not throw; every `throw` in the `try` block
lands in `handleProcessError`. -/
def PayAppWebhookProcessor.process (p : PayAppWebhookProcessor)
    (feedback : PaymentFeedback) (handlers : WebhookHandler) : ProcessRun :=
  if !(p.validate feedback) then
    handleProcessError p feedback handlers "Invalid webhook credentials" []
  else if p.isDuplicate feedback then
    ⟨TsOutcome.returned "SUCCESS", p.processedKeys, []⟩
  else
    match dispatchHandler handlers (getEventType feedback) feedback with
    | (Except.ok _, invoked) =>
      ⟨TsOutcome.returned "SUCCESS",
        (p.markAsProcessed feedback).processedKeys, invoked⟩
    | (Except.error e, invoked) => handleProcessError p feedback handlers e invoked

/-- A handler set whose registered `onError` callback never throws
(vacuously true when no `onError` is registered). -/
def onErrorNoThrow (handlers : WebhookHandler) : Prop :=
  ∀ g, handlers.onError = some g → ∀ e f, g e f = Except.ok ()

-- ============================================
-- Form codec: model of the platform URLSearchParams
-- as used by callAPI / parseResponse / the webhook endpoint
-- ============================================

/-- Hex digit characters `0-9A-F` used by percent-encoding. -/
def hexDigitChar (n : Nat) : Char :=
  if n < 10 then Char.ofNat (48 + n) else Char.ofNat (55 + n)

/-- Value of a hex digit character (both cases), `none` on a non-digit. -/
def hexDigitVal (c : Char) : Option Nat :=
  if 48 ≤ c.toNat ∧ c.toNat ≤ 57 then some (c.toNat - 48)
  else if 65 ≤ c.toNat ∧ c.toNat ≤ 70 then some (c.toNat - 55)
  else if 97 ≤ c.toNat ∧ c.toNat ≤ 102 then some (c.toNat - 87)
  else none

/-- UTF-8 bytes of a Unicode scalar value. -/
def utf8Bytes (n : Nat) : List Nat :=
  if n < 0x80 then [n]
  else if n < 0x800 then [0xC0 + n / 64, 0x80 + n % 64]
  else if n < 0x10000 then [0xE0 + n / 4096, 0x80 + n / 64 % 64, 0x80 + n % 64]
  else [0xF0 + n / 262144, 0x80 + n / 4096 % 64, 0x80 + n / 64 % 64, 0x80 + n % 64]

/-- Decode one UTF-8 scalar from a byte list; `none` on malformed input. -/
def utf8DecodeOne : List Nat → Option (Nat × List Nat)
  | [] => none
  | b :: rest =>
    if b < 0x80 then some (b, rest)
    else if 0xC0 ≤ b ∧ b < 0xE0 then
      match rest with
      | b1 :: rest1 =>
        if 0x80 ≤ b1 ∧ b1 < 0xC0 then
          some ((b - 0xC0) * 64 + (b1 - 0x80), rest1)
        else none
      | [] => none
    else if 0xE0 ≤ b ∧ b < 0xF0 then
      match rest with
      | b1 :: b2 :: rest2 =>
        if (0x80 ≤ b1 ∧ b1 < 0xC0) ∧ (0x80 ≤ b2 ∧ b2 < 0xC0) then
          some ((b - 0xE0) * 4096 + (b1 - 0x80) * 64 + (b2 - 0x80), rest2)
        else none
      | _ => none
    else if 0xF0 ≤ b ∧ b < 0xF8 then
      match rest with
      | b1 :: b2 :: b3 :: rest3 =>
        if (0x80 ≤ b1 ∧ b1 < 0xC0) ∧ (0x80 ≤ b2 ∧ b2 < 0xC0) ∧
            (0x80 ≤ b3 ∧ b3 < 0xC0) then
          some ((b - 0xF0) * 262144 + (b1 - 0x80) * 4096 +
            (b2 - 0x80) * 64 + (b3 - 0x80), rest3)
        else none
      | _ => none
    else none

/-- Fuelled UTF-8 decoder over a whole byte list (malformed tails are
dropped; the round-trip theorems only evaluate it on well-formed input). -/
def utf8DecodeFuel : Nat → List Nat → List Char
  | 0, _ => []
  | fuel + 1, bs =>
    match utf8DecodeOne bs with
    | some nr => Char.ofNat nr.1 :: utf8DecodeFuel fuel nr.2
    | none => []

/-- UTF-8 decode a byte list (the list length bounds the scalar count). -/
def utf8DecodeBytes (bs : List Nat) : List Char :=
  utf8DecodeFuel bs.length bs

/-- Characters the urlencoded serializer leaves as-is:
alphanumerics and `* - . _` (space becomes `+`, all else is
percent-encoded). -/
def isFormUnencoded (c : Char) : Bool :=
  (48 ≤ c.toNat && c.toNat ≤ 57) || (65 ≤ c.toNat && c.toNat ≤ 90) ||
  (97 ≤ c.toNat && c.toNat ≤ 122) ||
  c == '*' || c == '-' || c == '.' || c == '_'

/-- `%XY` percent-encoding of one byte. -/
def percentByte (b : Nat) : List Char :=
  ['%', hexDigitChar (b / 16), hexDigitChar (b % 16)]

/-- Serialize one character the way `URLSearchParams.toString()` does. -/
def encodeFormChar (c : Char) : List Char :=
  if c = ' ' then ['+']
  else if isFormUnencoded c then [c]
  else ((utf8Bytes c.toNat).map percentByte).flatten

/-- Serialize a string the way `URLSearchParams.toString()` does. -/
def urlEncodeStr (s : String) : String :=
  ⟨(s.data.map encodeFormChar).flatten⟩

/-- First pass of urlencoded parsing: turn the character stream back into
the byte stream (`+` is a space byte, `%XY` a literal byte, any other
character contributes its own UTF-8 bytes). -/
def formCharsToBytes : List Char → List Nat
  | [] => []
  | '%' :: c1 :: c2 :: rest =>
    (match hexDigitVal c1, hexDigitVal c2 with
     | some h1, some h2 => (h1 * 16 + h2) :: formCharsToBytes rest
     | _, _ => utf8Bytes '%'.toNat ++ formCharsToBytes (c1 :: c2 :: rest))
  | c :: rest =>
    if c = '+' then 32 :: formCharsToBytes rest
    else utf8Bytes c.toNat ++ formCharsToBytes rest

/-- Percent-decode a string the way `URLSearchParams` parsing does. -/
def urlDecodeStr (s : String) : String :=
  ⟨utf8DecodeBytes (formCharsToBytes s.data)⟩

/-- Split a character list at every occurrence of a delimiter (always
returns at least one, possibly empty, piece). -/
def splitOnChar (d : Char) : List Char → List (List Char)
  | [] => [[]]
  | c :: rest =>
    match splitOnChar d rest with
    | [] => if c = d then [[], []] else [[c]]
    | piece :: pieces =>
      if c = d then [] :: piece :: pieces else (c :: piece) :: pieces

/-- Join pieces with a single delimiter character between them. -/
def joinWithChar (d : Char) : List (List Char) → List Char
  | [] => []
  | [p] => p
  | p :: ps => p ++ d :: joinWithChar d ps

/-- Split a piece at the first occurrence of a delimiter:
the part before it, and (when present) the part after it. -/
def splitFirstChar (d : Char) : List Char → List Char × Option (List Char)
  | [] => ([], none)
  | c :: rest =>
    if c = d then ([], some rest)
    else
      match splitFirstChar d rest with
      | (a, b) => (c :: a, b)

/-- One serialized `key=value` pair of `URLSearchParams.toString()`. -/
def encodeFormPair (kv : String × String) : List Char :=
  (urlEncodeStr kv.1).data ++ '=' :: (urlEncodeStr kv.2).data

/-- `URLSearchParams.toString()` on a pair list: `&`-joined encoded pairs. -/
def encodeFormPairs (pairs : List (String × String)) : String :=
  ⟨joinWithChar '&' (pairs.map encodeFormPair)⟩

/-- Parse one `key=value` piece (a piece with no `=` has value `""`). -/
def decodeFormPiece (piece : List Char) : String × String :=
  match splitFirstChar '=' piece with
  | (k, v) => (urlDecodeStr ⟨k⟩, urlDecodeStr ⟨v.getD []⟩)

/-- `new URLSearchParams(text)`: split on `&`, drop empty pieces, parse
each piece into a pair. -/
def decodeFormBody (body : String) : List (String × String) :=
  ((splitOnChar '&' body.data).filter (· ≠ [])).map decodeFormPiece

/-- Property access on the record a `params.forEach` loop builds
(`record[key] = value`: the last binding of a key wins). -/
def jsGet (record : List (String × String)) (key : String) : Option String :=
  (record.reverse.find? (fun kv => kv.1 == key)).map (fun kv => kv.2)

-- ============================================
-- API client (lib/client.ts): PayAppClient.callAPI
-- ============================================

/-- A `string | number | null-or-undefined` parameter value. -/
inductive ParamValue where
  | str (s : String)
  | num (n : Int)
  | nullish
  deriving DecidableEq, Repr

/-- JS `String(value)` on a parameter value (never applied to a nullish
value by `callAPI`; integers render as in JS). -/
def paramToString : ParamValue → String
  | ParamValue.str s => s
  | ParamValue.num n => toString n
  | ParamValue.nullish => "null"

/-- The `formData.append` loop of `callAPI`: keep entries whose value is
neither `undefined` nor `null`, stringifying each kept value. -/
def encodeRequestParams (params : List (String × ParamValue)) :
    List (String × String) :=
  params.filterMap (fun kv =>
    match kv.2 with
    | ParamValue.nullish => none
    | v => some (kv.1, paramToString v))

/-- `PayAppError` from `types/index.ts`: an `Error` carrying `code`,
`state` and `errorMessage` (the `message` field is the `Error` message). -/
structure PayAppError where
  message : String
  code : String
  state : String
  errorMessage : String
  deriving DecidableEq, Repr

/-- Method `createError` of `PayAppClient`. -/
def createError (message : String) (code : String) : PayAppError :=
  ⟨message, code, "0", message⟩

/-- What the transport (`fetch` + `response.text()`) did: delivered a
status and body text, or rejected with a plain (code-less) error. -/
inductive FetchOutcome where
  | response (status : Nat) (text : String)
  | networkError (message : String)
  deriving DecidableEq, Repr

/-- `Response.ok`: HTTP status in the 200-299 range. -/
def responseOk (status : Nat) : Bool :=
  200 ≤ status && status < 300

/-- Method `parseResponse` of `PayAppClient`: parse the URL-encoded body
into the flat record the `forEach` loop builds (field access on that
record is `jsGet`). -/
def parseResponse (text : String) : List (String × String) :=
  decodeFormBody text

/-- JS `x || dflt` on an optional string field (both a missing field and
an empty string are falsy). -/
def jsOrDefault (v : Option String) (dflt : String) : String :=
  match v with
  | some s => if s = "" then dflt else s
  | none => dflt

/-- A thrown JS error as discriminated by the `catch` of `callAPI`:
either an `Error` with a `code` property, or a plain error. -/
inductive JsThrown where
  | withCode (e : PayAppError)
  | plain (message : String)
  deriving DecidableEq, Repr

/-- The `try` block of `callAPI`: encode the parameters, send them, check
`response.ok`, parse the text, and check the `state` flag. The provider's
answer is the `transport` argument (the encoded request body does not
influence the modelled transport). -/
def callAPITry (params : List (String × ParamValue)) (transport : FetchOutcome) :
    Except JsThrown (List (String × String)) :=
  let _body := encodeFormPairs (encodeRequestParams params)
  match transport with
  | FetchOutcome.networkError msg => Except.error (JsThrown.plain msg)
  | FetchOutcome.response status text =>
    if !(responseOk status) then
      Except.error (JsThrown.withCode
        (createError ("HTTP error! status: " ++ toString status) (toString status)))
    else
      let result := parseResponse text
      if jsGet result "state" = some "0" then
        Except.error (JsThrown.withCode
          (createError (jsOrDefault (jsGet result "errorMessage") "PayApp API error") "0"))
      else Except.ok result

/-- Method `callAPI` of `PayAppClient`: the `try` block plus its `catch`,
which rethrows errors already carrying a `code` and wraps anything else
into the same shape with code `"UNKNOWN"`. -/
def callAPI (params : List (String × ParamValue)) (transport : FetchOutcome) :
    Except PayAppError (List (String × String)) :=
  match callAPITry params transport with
  | Except.ok r => Except.ok r
  | Except.error (JsThrown.withCode e) => Except.error e
  | Except.error (JsThrown.plain m) => Except.error (createError m "UNKNOWN")

/-- JS object-spread insertion: overwrite in place when the key exists,
else append. -/
def objInsert (record : List (String × ParamValue)) (key : String)
    (v : ParamValue) : List (String × ParamValue) :=
  if record.any (fun kv => kv.1 == key) then
    record.map (fun kv => if kv.1 == key then (key, v) else kv)
  else record ++ [(key, v)]

/-- JS object spread `{ ...base, ...extra }` on flat records. -/
def objMerge (base extra : List (String × ParamValue)) :
    List (String × ParamValue) :=
  extra.foldl (fun acc kv => objInsert acc kv.1 kv.2) base

/-- Method `requestPayment` of `PayAppClient`:
`callAPI({cmd: 'payrequest', userid, ...params})`. -/
def requestPayment (credentials : PayAppCredentials)
    (params : List (String × ParamValue)) (transport : FetchOutcome) :
    Except PayAppError (List (String × String)) :=
  callAPI (objMerge [("cmd", ParamValue.str "payrequest"),
    ("userid", ParamValue.str credentials.userid)] params) transport

/-- Method `cancelPayment` of `PayAppClient`:
`callAPI({cmd: 'paycancel', userid, linkkey, ...params})`. -/
def cancelPayment (credentials : PayAppCredentials)
    (params : List (String × ParamValue)) (transport : FetchOutcome) :
    Except PayAppError (List (String × String)) :=
  callAPI (objMerge [("cmd", ParamValue.str "paycancel"),
    ("userid", ParamValue.str credentials.userid),
    ("linkkey", ParamValue.str credentials.linkkey)] params) transport

-- ============================================
-- Webhook endpoint (lib/webhook.ts): createWebhookHandler
-- ============================================

/-- The slice of a `Request` the handler reads. -/
structure HttpRequest where
  method : String
  contentType : Option String
  body : String

/-- A constructed `Response`: status and plaintext body. -/
structure HttpResponse where
  status : Nat
  body : String
  deriving DecidableEq, Repr

/-- JS `String.prototype.includes`. -/
def containsSubstr (s pat : String) : Bool :=
  (List.range (s.data.length + 1)).any (fun i => pat.data.isPrefixOf (s.data.drop i))

/-- Digit-string to `Nat` (`none` on a non-digit). -/
def digitsToNat (cs : List Char) : Option Nat :=
  cs.foldl (fun acc c =>
    match acc with
    | none => none
    | some n => if c.isDigit then some (n * 10 + (c.toNat - 48)) else none)
    (some 0)

/-- Numeric value of a decimal string, `none` when not numeric. -/
def strToIntModel (s : String) : Option Int :=
  match s.data with
  | [] => none
  | c :: rest =>
    if c = '-' then
      match rest with
      | [] => none
      | _ => (digitsToNat rest).map (fun n => -(n : Int))
    else (digitsToNat s.data).map (fun n => (n : Int))

/-- Method `parseWebhookRequest`: the source performs an unchecked
structural cast (`body as unknown as PaymentFeedback`); modelled by
explicit field projection — string fields default to `""` when absent and
the declared-numeric `pay_state` is modelled by reading the wire string's
numeric value (defaulting to `0`). The endpoint theorems below do not
depend on this choice: `process` is total on every `PaymentFeedback`. -/
def parseWebhookRequest (body : List (String × String)) : PaymentFeedback :=
  { userid := (jsGet body "userid").getD ""
    linkkey := (jsGet body "linkkey").getD ""
    linkval := (jsGet body "linkval").getD ""
    mul_no := (jsGet body "mul_no").getD ""
    price := (jsGet body "price").getD ""
    pay_state := ((jsGet body "pay_state").bind strToIntModel).getD 0
    var1 := jsGet body "var1"
    var2 := jsGet body "var2" }

/-- The endpoint's content-type guard:
`contentType?.includes('application/x-www-form-urlencoded')`
(a missing header is falsy). -/
def requestContentTypeOk (req : HttpRequest) : Bool :=
  match req.contentType with
  | some ct => containsSubstr ct "application/x-www-form-urlencoded"
  | none => false

/-- The request handler returned by `createWebhookHandler`, on one request:
405 for a non-POST method, 400 for a missing/wrong content type, otherwise
parse the body, run `process`, and answer 200 with its result string; an
error escaping `process` lands in the outer `catch`, which awaits
`onError(error)` (no feedback argument) and answers 200 `"ERROR"` — unless
`onError` itself throws, which escapes the handler. Returns the response
outcome and the processor's processed-keys set after the request. -/
def handleWebhookRequest (credentials : PayAppCredentials)
    (handlers : WebhookHandler) (processedKeys : List String)
    (req : HttpRequest) : TsOutcome HttpResponse × List String :=
  if req.method ≠ "POST" then
    (TsOutcome.returned ⟨405, "Method not allowed"⟩, processedKeys)
  else if !(requestContentTypeOk req) then
    (TsOutcome.returned ⟨400, "Invalid content type"⟩, processedKeys)
  else
    let body := decodeFormBody req.body
    let feedback := parseWebhookRequest body
    let run := PayAppWebhookProcessor.process ⟨credentials, processedKeys⟩ feedback handlers
    match run.outcome with
    | TsOutcome.returned result =>
      (TsOutcome.returned ⟨200, result⟩, run.processedKeys)
    | TsOutcome.threw e =>
      match handlers.onError with
      | some onErr =>
        match onErr e none with
        | Except.ok _ => (TsOutcome.returned ⟨200, "ERROR"⟩, run.processedKeys)
        | Except.error e2 => (TsOutcome.threw e2, run.processedKeys)
      | none => (TsOutcome.returned ⟨200, "ERROR"⟩, run.processedKeys)

-- ============================================
-- Concrete sample data (used by witnesses and counterexamples)
-- ============================================

/-- A sample credential triple. -/
def sampleCredentials : PayAppCredentials := ⟨"user1", "linkkey1", "linkval1"⟩

/-- A completed-payment feedback carrying the sample credentials. -/
def sampleFeedback : PaymentFeedback :=
  ⟨"user1", "linkkey1", "linkval1", "12345", "9900", 4, some "a", none⟩

/-- The sample feedback with a mismatched `linkkey`. -/
def badKeyFeedback : PaymentFeedback :=
  ⟨"user1", "wrongkey", "linkval1", "12345", "9900", 4, some "a", none⟩

/-- No callbacks registered. -/
def noHandlers : WebhookHandler := ⟨none, none, none, none, none⟩

/-- Only a non-throwing `onPaymentCompleted` handler. -/
def okCompletedHandlers : WebhookHandler :=
  ⟨none, some (fun _ => Except.ok ()), none, none, none⟩

/-- Only an `onPaymentCompleted` handler that always throws. -/
def throwingCompletedHandlers : WebhookHandler :=
  ⟨none, some (fun _ => Except.error "handler boom"), none, none, none⟩

/-- Only an `onError` callback, and it always throws. -/
def throwingOnErrorHandlers : WebhookHandler :=
  ⟨none, none, none, none, some (fun _ _ => Except.error "onError boom")⟩

/-- A throwing `onPaymentCompleted` handler plus a throwing `onError`. -/
def throwingBothHandlers : WebhookHandler :=
  ⟨none, some (fun _ => Except.error "handler boom"), none, none,
   some (fun _ _ => Except.error "onError boom")⟩

/-- Two feedbacks whose dedup keys collide although both `mul_no` and
`pay_state` differ (underscores inside `mul_no`/`var1` shift the
separators). -/
def collidingFeedbackA : PaymentFeedback :=
  ⟨"user1", "linkkey1", "linkval1", "1_2", "9900", 3, none, none⟩

/-- See `collidingFeedbackA`. -/
def collidingFeedbackB : PaymentFeedback :=
  ⟨"user1", "linkkey1", "linkval1", "1", "9900", 2, some "3_", none⟩

/-- The sample feedback with a cancelled `pay_state`. -/
def cancelledSampleFeedback : PaymentFeedback :=
  ⟨"user1", "linkkey1", "linkval1", "12345", "9900", 8, some "a", none⟩

/-- The `pay_state` codes the provider documents (the classification
tables and the classified codes of `getEventType`). -/
def payStateCodes : List Int := [1, 4, 8, 9, 10, 32, 64, 70, 71]

/-- A string with no `_` separator character inside. -/
def underscoreFree (s : String) : Prop := '_' ∉ s.data

/-- Decimal value of a digit string (used to verify that `Nat.repr`
really is the decimal representation, hence injective). -/
def digitsVal (cs : List Char) : Nat :=
  cs.foldl (fun acc c => acc * 10 + (c.toNat - 48)) 0

-- ============================================
-- Helper lemmas about the webhook processor
-- ============================================

theorem handleProcessError_processedKeys (p : PayAppWebhookProcessor)
    (feedback : PaymentFeedback) (handlers : WebhookHandler) (err : String)
    (invoked : List HandlerTag) :
    (handleProcessError p feedback handlers err invoked).processedKeys =
      p.processedKeys := by
  unfold handleProcessError
  rcases hOE : handlers.onError with _ | g
  · rfl
  · rcases hg : g err (some feedback) with _ | e2 <;> simp [hg]

theorem handleProcessError_invoked_cases (p : PayAppWebhookProcessor)
    (feedback : PaymentFeedback) (handlers : WebhookHandler) (err : String)
    (invoked : List HandlerTag) :
    (handleProcessError p feedback handlers err invoked).invoked = invoked ∨
    (handleProcessError p feedback handlers err invoked).invoked =
      invoked ++ [HandlerTag.errorCb] := by
  unfold handleProcessError
  rcases hOE : handlers.onError with _ | g
  · exact Or.inl rfl
  · rcases hg : g err (some feedback) with _ | e2 <;> simp [hg]

theorem handleProcessError_errorCb (p : PayAppWebhookProcessor)
    (feedback : PaymentFeedback) {handlers : WebhookHandler} (err : String)
    (invoked : List HandlerTag) {g}
    (hOE : handlers.onError = some g) :
    HandlerTag.errorCb ∈
      (handleProcessError p feedback handlers err invoked).invoked := by
  unfold handleProcessError
  rw [hOE]
  rcases hg : g err (some feedback) with _ | e2 <;> simp [hg]

theorem handleProcessError_outcome_noThrow (p : PayAppWebhookProcessor)
    (feedback : PaymentFeedback) {handlers : WebhookHandler} (err : String)
    (invoked : List HandlerTag) (hnt : onErrorNoThrow handlers) :
    (handleProcessError p feedback handlers err invoked).outcome =
      TsOutcome.returned "ERROR" := by
  unfold handleProcessError
  rcases hOE : handlers.onError with _ | g
  · rfl
  · simp [hnt g hOE err (some feedback)]

theorem dispatchHandler_invoked_len (handlers : WebhookHandler)
    (et : WebhookEventType) (feedback : PaymentFeedback) :
    (dispatchHandler handlers et feedback).2.length ≤ 1 := by
  cases et
  case requested => rcases h : handlers.onPaymentRequested <;> simp [dispatchHandler, h]
  case completed => rcases h : handlers.onPaymentCompleted <;> simp [dispatchHandler, h]
  case cancelled => rcases h : handlers.onPaymentCancelled <;> simp [dispatchHandler, h]
  case waiting => rcases h : handlers.onPaymentWaiting <;> simp [dispatchHandler, h]
  case unknown => simp [dispatchHandler]

theorem process_keys_superset (p : PayAppWebhookProcessor)
    (f : PaymentFeedback) (h : WebhookHandler) :
    p.processedKeys ⊆ (p.process f h).processedKeys := by
  unfold PayAppWebhookProcessor.process
  split_ifs with h1 h2
  · rw [handleProcessError_processedKeys]
    exact fun a ha => ha
  · exact fun a ha => ha
  · rcases hd : dispatchHandler h (getEventType f) f with ⟨r, inv⟩
    cases r with
    | ok v =>
      simp only [PayAppWebhookProcessor.markAsProcessed]
      exact List.subset_insert _ _
    | error e =>
      rw [handleProcessError_processedKeys]
      exact fun a ha => ha

theorem process_outcome_noThrow (p : PayAppWebhookProcessor)
    (f : PaymentFeedback) (h : WebhookHandler) (hnt : onErrorNoThrow h) :
    (p.process f h).outcome = TsOutcome.returned "SUCCESS" ∨
    (p.process f h).outcome = TsOutcome.returned "ERROR" := by
  unfold PayAppWebhookProcessor.process
  split_ifs with h1 h2
  · exact Or.inr (handleProcessError_outcome_noThrow p f _ _ hnt)
  · exact Or.inl rfl
  · rcases hd : dispatchHandler h (getEventType f) f with ⟨r, inv⟩
    cases r with
    | ok v => exact Or.inl rfl
    | error e => exact Or.inr (handleProcessError_outcome_noThrow p f _ _ hnt)

theorem process_error_errorCb (p : PayAppWebhookProcessor)
    (f : PaymentFeedback) (h : WebhookHandler) (g)
    (hOE : h.onError = some g)
    (ho : (p.process f h).outcome = TsOutcome.returned "ERROR") :
    HandlerTag.errorCb ∈ (p.process f h).invoked := by
  unfold PayAppWebhookProcessor.process at ho ⊢
  split_ifs at ho ⊢ with h1 h2
  · exact handleProcessError_errorCb p f _ _ hOE
  · simp at ho
  · rcases hd : dispatchHandler h (getEventType f) f with ⟨r, inv⟩
    rw [hd] at ho
    cases r with
    | ok v => simp at ho
    | error e => exact handleProcessError_errorCb p f _ _ hOE

theorem process_valid_dup_run (creds : PayAppCredentials) (keys : List String)
    (f : PaymentFeedback) (h : WebhookHandler)
    (hval : validateFeedback f creds = true)
    (hdup : keys.contains (generateFeedbackKey f) = true) :
    PayAppWebhookProcessor.process ⟨creds, keys⟩ f h =
      ⟨TsOutcome.returned "SUCCESS", keys, []⟩ := by
  unfold PayAppWebhookProcessor.process
  have hv : PayAppWebhookProcessor.validate ⟨creds, keys⟩ f = true := hval
  have hd : PayAppWebhookProcessor.isDuplicate ⟨creds, keys⟩ f = true := hdup
  rw [hv, hd]
  rfl

theorem process_valid_new_ok_run (creds : PayAppCredentials) (keys : List String)
    (f : PaymentFeedback) (h : WebhookHandler) (inv : List HandlerTag)
    (hval : validateFeedback f creds = true)
    (hdup : keys.contains (generateFeedbackKey f) = false)
    (hds : dispatchHandler h (getEventType f) f = (Except.ok (), inv)) :
    PayAppWebhookProcessor.process ⟨creds, keys⟩ f h =
      ⟨TsOutcome.returned "SUCCESS", keys.insert (generateFeedbackKey f), inv⟩ := by
  unfold PayAppWebhookProcessor.process
  have hv : PayAppWebhookProcessor.validate ⟨creds, keys⟩ f = true := hval
  have hd : PayAppWebhookProcessor.isDuplicate ⟨creds, keys⟩ f = false := hdup
  rw [hv, hd, hds]
  rfl

-- ============================================
-- Claim theorems
-- ============================================

/-- C4: event classification is total over the integers: every `pay_state`
maps to exactly one of the five event categories; `1` to requested, `4` to
completed, each of `8, 9, 32, 64, 70, 71` to cancelled, `10` to waiting,
and every integer outside these codes to unknown. -/
theorem getEventType_classification (f : PaymentFeedback) :
    (getEventType f = WebhookEventType.requested ↔ f.pay_state = 1) ∧
    (getEventType f = WebhookEventType.completed ↔ f.pay_state = 4) ∧
    (getEventType f = WebhookEventType.cancelled ↔
      (f.pay_state = 8 ∨ f.pay_state = 9 ∨ f.pay_state = 32 ∨
       f.pay_state = 64 ∨ f.pay_state = 70 ∨ f.pay_state = 71)) ∧
    (getEventType f = WebhookEventType.waiting ↔ f.pay_state = 10) ∧
    (getEventType f = WebhookEventType.unknown ↔ f.pay_state ∉ payStateCodes) := by
  unfold getEventType payStateCodes
  split_ifs with h1 h2 h3 h4 <;> simp_all <;> omega

/-- Witness for `getEventType_classification` at a concrete feedback. -/
theorem getEventType_classification_witness :
    getEventType sampleFeedback = WebhookEventType.completed ↔
      sampleFeedback.pay_state = 4 :=
  (getEventType_classification sampleFeedback).2.1

/-- C10: `process` only ever grows the processed-keys set;
`clearProcessedKeys` empties it, after which `isDuplicate` is false for
every feedback. -/
theorem processedKeys_monotone_and_clear :
    (∀ (p : PayAppWebhookProcessor) (f : PaymentFeedback) (h : WebhookHandler),
      p.processedKeys ⊆ (p.process f h).processedKeys) ∧
    (∀ p : PayAppWebhookProcessor, p.clearProcessedKeys.processedKeys = []) ∧
    (∀ (p : PayAppWebhookProcessor) (f : PaymentFeedback),
      p.clearProcessedKeys.isDuplicate f = false) :=
  ⟨process_keys_superset, fun _ => rfl, fun _ _ => rfl⟩

/-- C1 (amended): for every feedback whose embedded credential triple does
not match the configured credentials, none of the four event handlers is
invoked, the `onError` callback is invoked when registered, and — provided
a registered `onError` does not itself throw — `process` returns
`"ERROR"` (when `onError` throws, its exception escapes `process` instead
of a return value). -/
theorem process_rejects_invalid_credentials (p : PayAppWebhookProcessor)
    (f : PaymentFeedback) (h : WebhookHandler)
    (hbad : validateFeedback f p.credentials = false) :
    (∀ t ∈ (p.process f h).invoked, t = HandlerTag.errorCb) ∧
    (h.onError ≠ none → HandlerTag.errorCb ∈ (p.process f h).invoked) ∧
    (onErrorNoThrow h → (p.process f h).outcome = TsOutcome.returned "ERROR") := by
  have hv : p.validate f = false := hbad
  have hrw : p.process f h =
      handleProcessError p f h "Invalid webhook credentials" [] := by
    unfold PayAppWebhookProcessor.process
    rw [hv]
    rfl
  rw [hrw]
  refine ⟨?_, ?_, ?_⟩
  · rcases handleProcessError_invoked_cases p f h "Invalid webhook credentials" []
      with hc | hc <;> rw [hc] <;> simp
  · intro hne
    rcases ho : h.onError with _ | g
    · exact absurd ho hne
    · exact handleProcessError_errorCb p f _ _ ho
  · intro hnt
    exact handleProcessError_outcome_noThrow p f _ _ hnt

/-- Witness for `process_rejects_invalid_credentials`: mismatched
`linkkey`, no handlers registered. -/
theorem process_rejects_invalid_credentials_witness :
    validateFeedback badKeyFeedback sampleCredentials = false ∧
    (PayAppWebhookProcessor.process ⟨sampleCredentials, []⟩ badKeyFeedback
      noHandlers).outcome = TsOutcome.returned "ERROR" :=
  ⟨by decide,
   (process_rejects_invalid_credentials ⟨sampleCredentials, []⟩ badKeyFeedback
     noHandlers (by decide)).2.2 (fun g hg => by simp [noHandlers] at hg)⟩

/-- Counterexample to C1 as stated: with a registered `onError` that
throws, `process` on a credential-mismatched feedback does not return
`"ERROR"` — the `onError` exception escapes `process`. -/
theorem process_rejects_invalid_credentials_counterexample :
    validateFeedback badKeyFeedback sampleCredentials = false ∧
    throwingOnErrorHandlers.onError ≠ none ∧
    (PayAppWebhookProcessor.process ⟨sampleCredentials, []⟩ badKeyFeedback
      throwingOnErrorHandlers).outcome = TsOutcome.threw "onError boom" :=
  ⟨by decide, by simp [throwingOnErrorHandlers], by rfl⟩

/-- C5 (amended): provided a registered `onError` callback does not throw,
`process` always terminates by returning `"SUCCESS"` or `"ERROR"`, and
every `"ERROR"` return comes with an invocation of a registered `onError`
(when `onError` itself throws, the exception escapes `process`, refuting
the unconditional claim — see the counterexample). -/
theorem process_never_throws (p : PayAppWebhookProcessor) (f : PaymentFeedback)
    (h : WebhookHandler) (hnt : onErrorNoThrow h) :
    ((p.process f h).outcome = TsOutcome.returned "SUCCESS" ∨
     (p.process f h).outcome = TsOutcome.returned "ERROR") ∧
    (∀ g, h.onError = some g →
      (p.process f h).outcome = TsOutcome.returned "ERROR" →
      HandlerTag.errorCb ∈ (p.process f h).invoked) :=
  ⟨process_outcome_noThrow p f h hnt,
   fun g hg ho => process_error_errorCb p f h g hg ho⟩

/-- Witness for `process_never_throws` at concrete inputs. -/
theorem process_never_throws_witness :
    (PayAppWebhookProcessor.process ⟨sampleCredentials, []⟩ sampleFeedback
      noHandlers).outcome = TsOutcome.returned "SUCCESS" ∨
    (PayAppWebhookProcessor.process ⟨sampleCredentials, []⟩ sampleFeedback
      noHandlers).outcome = TsOutcome.returned "ERROR" :=
  (process_never_throws ⟨sampleCredentials, []⟩ sampleFeedback noHandlers
    (fun g hg => by simp [noHandlers] at hg)).1

/-- Counterexample to C5 as stated: a throwing handler plus a throwing
`onError` make `process` itself throw rather than return a string. -/
theorem process_never_throws_counterexample :
    (PayAppWebhookProcessor.process ⟨sampleCredentials, []⟩ sampleFeedback
      throwingBothHandlers).outcome = TsOutcome.threw "onError boom" := by
  rfl

/-- C3: when the registered event handler throws during dispatch (on a
validated, not-yet-deduplicated feedback), the dedup key is not recorded —
the processed-keys set is unchanged — and an identical subsequent delivery
invokes the handler again. -/
theorem process_handler_throw_keeps_key (p : PayAppWebhookProcessor)
    (f : PaymentFeedback) (h : WebhookHandler) (e : String) (tag : HandlerTag)
    (hval : validateFeedback f p.credentials = true)
    (hdup : p.isDuplicate f = false)
    (hthrow : dispatchHandler h (getEventType f) f = (Except.error e, [tag])) :
    (p.process f h).processedKeys = p.processedKeys ∧
    tag ∈ (PayAppWebhookProcessor.process
      ⟨p.credentials, (p.process f h).processedKeys⟩ f h).invoked := by
  obtain ⟨creds, keys⟩ := p
  have hv : (⟨creds, keys⟩ : PayAppWebhookProcessor).validate f = true := hval
  have hrun : PayAppWebhookProcessor.process ⟨creds, keys⟩ f h =
      handleProcessError ⟨creds, keys⟩ f h e [tag] := by
    unfold PayAppWebhookProcessor.process
    rw [hv, hdup, hthrow]
    rfl
  have hkeys : (PayAppWebhookProcessor.process ⟨creds, keys⟩ f h).processedKeys
      = keys := by
    rw [hrun, handleProcessError_processedKeys]
  refine ⟨hkeys, ?_⟩
  rw [hkeys, hrun]
  rcases handleProcessError_invoked_cases ⟨creds, keys⟩ f h e [tag]
    with hc | hc <;> rw [hc] <;> simp

/-- Witness for `process_handler_throw_keeps_key`: a throwing completed
handler on a valid feedback; the key is absent afterwards and the second
identical call invokes the handler again. -/
theorem process_handler_throw_keeps_key_witness :
    (PayAppWebhookProcessor.process ⟨sampleCredentials, []⟩ sampleFeedback
      throwingCompletedHandlers).processedKeys = [] ∧
    HandlerTag.completed ∈ (PayAppWebhookProcessor.process
      ⟨sampleCredentials, (PayAppWebhookProcessor.process ⟨sampleCredentials, []⟩
        sampleFeedback throwingCompletedHandlers).processedKeys⟩
      sampleFeedback throwingCompletedHandlers).invoked :=
  process_handler_throw_keeps_key ⟨sampleCredentials, []⟩ sampleFeedback
    throwingCompletedHandlers "handler boom" HandlerTag.completed
    (by decide) (by decide) (by rfl)

/-- C2 (amended): the dedup key is a deterministic pure function of
`(mul_no, pay_state, var1, var2)`; and for every valid feedback and every
handler set whose matching handler does not throw on it, two successive
`process` calls with the identical feedback both return `"SUCCESS"` and
dispatch at most one event handler in total (a throwing matching handler
makes the first call return `"ERROR"` — see the counterexample). -/
theorem feedbackKey_deterministic_process_idempotent :
    (∀ f g : PaymentFeedback, f.mul_no = g.mul_no → f.pay_state = g.pay_state →
      f.var1 = g.var1 → f.var2 = g.var2 →
      generateFeedbackKey f = generateFeedbackKey g) ∧
    (∀ (p : PayAppWebhookProcessor) (f : PaymentFeedback) (h : WebhookHandler),
      validateFeedback f p.credentials = true →
      (dispatchHandler h (getEventType f) f).1 = Except.ok () →
      (p.process f h).outcome = TsOutcome.returned "SUCCESS" ∧
      (PayAppWebhookProcessor.process
        ⟨p.credentials, (p.process f h).processedKeys⟩ f h).outcome =
        TsOutcome.returned "SUCCESS" ∧
      ((p.process f h).invoked ++
        (PayAppWebhookProcessor.process
          ⟨p.credentials, (p.process f h).processedKeys⟩ f h).invoked).length ≤ 1) := by
  constructor
  · intro f g h1 h2 h3 h4
    unfold generateFeedbackKey
    rw [h1, h2, h3, h4]
  · intro p f h hval hok
    obtain ⟨creds, keys⟩ := p
    rcases hd : dispatchHandler h (getEventType f) f with ⟨r, inv⟩
    rw [hd] at hok
    simp only at hok
    have hr : r = Except.ok () := by
      cases r with
      | ok v => cases v; rfl
      | error e => simp at hok
    subst hr
    have hlen : inv.length ≤ 1 := by
      have hl := dispatchHandler_invoked_len h (getEventType f) f
      rw [hd] at hl
      exact hl
    by_cases hdup : keys.contains (generateFeedbackKey f) = true
    · have h1 : PayAppWebhookProcessor.process ⟨creds, keys⟩ f h =
          ⟨TsOutcome.returned "SUCCESS", keys, []⟩ :=
        process_valid_dup_run creds keys f h hval hdup
      rw [h1]
      have h2 : PayAppWebhookProcessor.process ⟨creds, keys⟩ f h =
          ⟨TsOutcome.returned "SUCCESS", keys, []⟩ := h1
      exact ⟨rfl, by rw [h2], by rw [h2]; simp⟩
    · have hdupF : keys.contains (generateFeedbackKey f) = false := by
        simpa using hdup
      have h1 : PayAppWebhookProcessor.process ⟨creds, keys⟩ f h =
          ⟨TsOutcome.returned "SUCCESS",
            keys.insert (generateFeedbackKey f), inv⟩ :=
        process_valid_new_ok_run creds keys f h inv hval hdupF hd
      have hdup2 : (keys.insert (generateFeedbackKey f)).contains
          (generateFeedbackKey f) = true := by
        simp [List.contains_iff_exists_mem_beq]
      have h2 : PayAppWebhookProcessor.process
          ⟨creds, keys.insert (generateFeedbackKey f)⟩ f h =
          ⟨TsOutcome.returned "SUCCESS", keys.insert (generateFeedbackKey f), []⟩ :=
        process_valid_dup_run creds _ f h hval hdup2
      rw [h1]
      exact ⟨rfl, by rw [h2], by rw [h2]; simpa using hlen⟩

/-- Witness for `feedbackKey_deterministic_process_idempotent` at concrete
inputs: the key is reproduced, and a valid completed feedback with a
non-throwing completed handler yields `"SUCCESS"` on the first call. -/
theorem feedbackKey_deterministic_process_idempotent_witness :
    generateFeedbackKey sampleFeedback = generateFeedbackKey sampleFeedback ∧
    (PayAppWebhookProcessor.process ⟨sampleCredentials, []⟩ sampleFeedback
      okCompletedHandlers).outcome = TsOutcome.returned "SUCCESS" :=
  ⟨feedbackKey_deterministic_process_idempotent.1 sampleFeedback sampleFeedback
     rfl rfl rfl rfl,
   (feedbackKey_deterministic_process_idempotent.2 ⟨sampleCredentials, []⟩
     sampleFeedback okCompletedHandlers (by decide) (by rfl)).1⟩

/-- Counterexample to C2 as stated: over all handler sets, a throwing
matching handler makes the first of the two calls return `"ERROR"`, not
`"SUCCESS"`. -/
theorem process_idempotent_counterexample :
    validateFeedback sampleFeedback sampleCredentials = true ∧
    (PayAppWebhookProcessor.process ⟨sampleCredentials, []⟩ sampleFeedback
      throwingCompletedHandlers).outcome = TsOutcome.returned "ERROR" :=
  ⟨by decide, by rfl⟩

-- ============================================
-- Dedup-key separation (C6)
-- ============================================

theorem string_eq_of_data {s t : String} (h : s.data = t.data) : s = t := by
  cases s
  cases t
  simp_all

theorem append_sep_inj {d : Char} {a a' r r' : List Char}
    (ha : d ∉ a) (ha' : d ∉ a') (h : a ++ d :: r = a' ++ d :: r') :
    a = a' ∧ r = r' := by
  induction a generalizing a' with
  | nil =>
    cases a' with
    | nil => simp_all
    | cons b bs =>
      simp only [List.nil_append, List.cons_append, List.cons.injEq] at h
      rw [h.1] at ha'
      simp at ha'
  | cons b bs ih =>
    cases a' with
    | nil =>
      simp only [List.nil_append, List.cons_append, List.cons.injEq] at h
      rw [← h.1] at ha
      simp at ha
    | cons c cs =>
      simp only [List.cons_append, List.cons.injEq] at h
      obtain ⟨hbc, hrest⟩ := h
      subst hbc
      have ha2 : d ∉ bs := fun hm => ha (List.mem_cons_of_mem _ hm)
      have ha2' : d ∉ cs := fun hm => ha' (List.mem_cons_of_mem _ hm)
      obtain ⟨h1, h2⟩ := ih ha2 ha2' hrest
      exact ⟨by rw [h1], h2⟩

theorem generateFeedbackKey_data (f : PaymentFeedback) :
    (generateFeedbackKey f).data =
      f.mul_no.data ++ '_' :: ((toString f.pay_state).data ++ '_' ::
        ((f.var1.getD "").data ++ '_' :: (f.var2.getD "").data)) := by
  have hu : ("_" : String).data = ['_'] := rfl
  unfold generateFeedbackKey
  simp [String.data_append, hu]

theorem digitChar_isDigit (m : Nat) (hm : m < 10) :
    (Nat.digitChar m).isDigit = true ∧ (Nat.digitChar m).toNat = 48 + m := by
  interval_cases m <;> decide

theorem toDigitsCore_append : ∀ (fuel n : Nat) (ds : List Char),
    Nat.toDigitsCore 10 fuel n ds = Nat.toDigitsCore 10 fuel n [] ++ ds := by
  intro fuel
  induction fuel with
  | zero => intro n ds; rfl
  | succ f ih =>
    intro n ds
    simp only [Nat.toDigitsCore]
    by_cases h10 : n / 10 = 0
    · simp [h10]
    · simp only [h10, if_false]
      rw [ih (n / 10) [Nat.digitChar (n % 10)], ih (n / 10) (Nat.digitChar (n % 10) :: ds)]
      simp

theorem toDigitsCore_fuel_irrel : ∀ (n fuel1 fuel2 : Nat), n < fuel1 → n < fuel2 →
    Nat.toDigitsCore 10 fuel1 n [] = Nat.toDigitsCore 10 fuel2 n [] := by
  intro n
  induction n using Nat.strong_induction_on with
  | _ n ih =>
    intro fuel1 fuel2 h1 h2
    cases fuel1 with
    | zero => omega
    | succ f1 =>
      cases fuel2 with
      | zero => omega
      | succ f2 =>
        simp only [Nat.toDigitsCore]
        by_cases h10 : n / 10 = 0
        · simp [h10]
        · simp only [h10, if_false]
          rw [toDigitsCore_append f1 (n / 10) [Nat.digitChar (n % 10)],
            toDigitsCore_append f2 (n / 10) [Nat.digitChar (n % 10)]]
          rw [ih (n / 10) (by omega) f1 f2 (by omega) (by omega)]

theorem toDigits_step (n : Nat) (h10 : n / 10 ≠ 0) :
    Nat.toDigits 10 n = Nat.toDigits 10 (n / 10) ++ [Nat.digitChar (n % 10)] := by
  conv_lhs => simp only [Nat.toDigits, Nat.toDigitsCore]
  rw [if_neg h10]
  rw [toDigitsCore_append n (n / 10) [Nat.digitChar (n % 10)]]
  rw [toDigitsCore_fuel_irrel (n / 10) n (n / 10 + 1) (by omega) (by omega)]
  rfl

theorem toDigits_base (n : Nat) (h10 : n / 10 = 0) :
    Nat.toDigits 10 n = [Nat.digitChar (n % 10)] := by
  simp [Nat.toDigits, Nat.toDigitsCore, h10]

theorem digitsVal_toDigits (n : Nat) : digitsVal (Nat.toDigits 10 n) = n := by
  induction n using Nat.strong_induction_on with
  | _ n ih =>
    by_cases h10 : n / 10 = 0
    · rw [toDigits_base n h10]
      have hd := digitChar_isDigit (n % 10) (by omega)
      simp [digitsVal, hd.2]
      omega
    · rw [toDigits_step n h10]
      have hd := digitChar_isDigit (n % 10) (by omega)
      simp only [digitsVal, List.foldl_append, List.foldl_cons, List.foldl_nil]
      have hih := ih (n / 10) (by omega)
      simp only [digitsVal] at hih
      rw [hih, hd.2]
      omega

theorem toDigits_isDigit (n : Nat) : ∀ c ∈ Nat.toDigits 10 n, c.isDigit = true := by
  induction n using Nat.strong_induction_on with
  | _ n ih =>
    intro c hc
    by_cases h10 : n / 10 = 0
    · rw [toDigits_base n h10] at hc
      simp at hc
      subst hc
      exact (digitChar_isDigit (n % 10) (by omega)).1
    · rw [toDigits_step n h10] at hc
      rcases List.mem_append.mp hc with h | h
      · exact ih (n / 10) (by omega) c h
      · simp at h
        subst h
        exact (digitChar_isDigit (n % 10) (by omega)).1

theorem nat_repr_data (n : Nat) : (Nat.repr n).data = Nat.toDigits 10 n := rfl

theorem nat_repr_inj {n m : Nat} (h : Nat.repr n = Nat.repr m) : n = m := by
  have hd : Nat.toDigits 10 n = Nat.toDigits 10 m := by
    rw [← nat_repr_data, ← nat_repr_data, h]
  rw [← digitsVal_toDigits n, ← digitsVal_toDigits m, hd]

theorem int_toString_data_ofNat (m : Nat) :
    (toString (Int.ofNat m)).data = (Nat.repr m).data := rfl

theorem int_toString_data_negSucc (m : Nat) :
    (toString (Int.negSucc m)).data = '-' :: (Nat.repr (m + 1)).data := rfl

theorem int_toString_no_underscore (i : Int) : '_' ∉ (toString i).data := by
  intro hm
  cases i with
  | ofNat m =>
    rw [int_toString_data_ofNat, nat_repr_data] at hm
    have := toDigits_isDigit m '_' hm
    simp [Char.isDigit] at this
  | negSucc m =>
    rw [int_toString_data_negSucc] at hm
    rcases List.mem_cons.mp hm with h | h
    · exact absurd h (by decide)
    · rw [nat_repr_data] at h
      have := toDigits_isDigit (m + 1) '_' h
      simp [Char.isDigit] at this

theorem int_toString_inj {a b : Int} (h : toString a = toString b) : a = b := by
  cases a with
  | ofNat m =>
    cases b with
    | ofNat m' =>
      have hn : Nat.repr m = Nat.repr m' := h
      rw [nat_repr_inj hn]
    | negSucc m' =>
      have hd : (Nat.repr m).data = '-' :: (Nat.repr (m' + 1)).data := by
        rw [← int_toString_data_ofNat, h, int_toString_data_negSucc]
      have hmem : '-' ∈ (Nat.repr m).data := by
        rw [hd]
        exact List.mem_cons_self _ _
      rw [nat_repr_data] at hmem
      have := toDigits_isDigit m '-' hmem
      simp [Char.isDigit] at this
  | negSucc m =>
    cases b with
    | ofNat m' =>
      have hd : (Nat.repr m').data = '-' :: (Nat.repr (m + 1)).data := by
        rw [← int_toString_data_ofNat, ← h, int_toString_data_negSucc]
      have hmem : '-' ∈ (Nat.repr m').data := by
        rw [hd]
        exact List.mem_cons_self _ _
      rw [nat_repr_data] at hmem
      have := toDigits_isDigit m' '-' hmem
      simp [Char.isDigit] at this
    | negSucc m' =>
      have hd : (toString (Int.negSucc m)).data = (toString (Int.negSucc m')).data := by
        rw [h]
      rw [int_toString_data_negSucc, int_toString_data_negSucc] at hd
      have hdd : (Nat.repr (m + 1)).data = (Nat.repr (m' + 1)).data := by
        injection hd
      have h2 : Nat.repr (m + 1) = Nat.repr (m' + 1) := string_eq_of_data hdd
      have h3 := nat_repr_inj h2
      have hmm : m = m' := by omega
      rw [hmm]

/-- C6 (amended): records agreeing on `(mul_no, pay_state, var1, var2)`
always share a key; and two records whose `mul_no` contains no `_` get
distinct keys whenever they differ in `mul_no` or `pay_state` — for every
integer `pay_state`, since the decimal string of an integer never
contains `_` and is injective. (Unrestricted, the claim fails: `_` inside
`mul_no`/`var1` shifts the separators — see the counterexample.) -/
theorem generateFeedbackKey_separation :
    (∀ f g : PaymentFeedback, f.mul_no = g.mul_no → f.pay_state = g.pay_state →
      f.var1 = g.var1 → f.var2 = g.var2 →
      generateFeedbackKey f = generateFeedbackKey g) ∧
    (∀ f g : PaymentFeedback, underscoreFree f.mul_no → underscoreFree g.mul_no →
      (f.mul_no ≠ g.mul_no ∨ f.pay_state ≠ g.pay_state) →
      generateFeedbackKey f ≠ generateFeedbackKey g) := by
  constructor
  · intro f g h1 h2 h3 h4
    unfold generateFeedbackKey
    rw [h1, h2, h3, h4]
  · intro f g hf hg hne heq
    have hdata : (generateFeedbackKey f).data = (generateFeedbackKey g).data := by
      rw [heq]
    rw [generateFeedbackKey_data, generateFeedbackKey_data] at hdata
    obtain ⟨hmul, hrest⟩ := append_sep_inj hf hg hdata
    obtain ⟨hs, _⟩ := append_sep_inj
      (int_toString_no_underscore f.pay_state) (int_toString_no_underscore g.pay_state)
      hrest
    rcases hne with hne | hne
    · exact hne (string_eq_of_data hmul)
    · exact hne (int_toString_inj (string_eq_of_data hs))

/-- Witness for `generateFeedbackKey_separation`: same payment, completed
vs cancelled state, distinct keys. -/
theorem generateFeedbackKey_separation_witness :
    generateFeedbackKey sampleFeedback ≠ generateFeedbackKey cancelledSampleFeedback :=
  generateFeedbackKey_separation.2 sampleFeedback cancelledSampleFeedback
    (by unfold underscoreFree; decide) (by unfold underscoreFree; decide)
    (Or.inr (by decide))

/-- Counterexample to C6 as stated: two records differing in both `mul_no`
and `pay_state` whose keys nevertheless coincide, because `_` occurring
inside `mul_no`/`var1` shifts the key's separators. -/
theorem generateFeedbackKey_collision_counterexample :
    collidingFeedbackA.mul_no ≠ collidingFeedbackB.mul_no ∧
    collidingFeedbackA.pay_state ≠ collidingFeedbackB.pay_state ∧
    generateFeedbackKey collidingFeedbackA = generateFeedbackKey collidingFeedbackB := by
  refine ⟨by decide, by decide, by decide⟩

-- ============================================
-- Form codec round trip (C9)
-- ============================================

theorem char_toNat_lt (c : Char) : c.toNat < 1114112 := by
  rcases c.valid with h | h <;> simp [Char.toNat] <;> omega

theorem utf8Bytes_ne_nil (n : Nat) : utf8Bytes n ≠ [] := by
  unfold utf8Bytes
  split_ifs <;> simp

theorem utf8Bytes_lt_256 (n : Nat) (hn : n < 1114112) :
    ∀ b ∈ utf8Bytes n, b < 256 := by
  unfold utf8Bytes
  split_ifs with h1 h2 h3 <;> intro b hb <;> simp at hb <;> omega

theorem utf8DecodeOne_utf8Bytes (n : Nat) (hn : n < 1114112) (rest : List Nat) :
    utf8DecodeOne (utf8Bytes n ++ rest) = some (n, rest) := by
  unfold utf8Bytes
  split_ifs with h1 h2 h3
  · simp [utf8DecodeOne, h1]
  · have c1 : ¬(0xC0 + n / 64 < 0x80) := by omega
    have c2 : 0xC0 ≤ 0xC0 + n / 64 ∧ 0xC0 + n / 64 < 0xE0 := by omega
    have c3 : 0x80 ≤ 0x80 + n % 64 ∧ 0x80 + n % 64 < 0xC0 := by omega
    simp [utf8DecodeOne, c1, c2, c3]
    omega
  · have c1 : ¬(0xE0 + n / 4096 < 0x80) := by omega
    have c2 : ¬(0xC0 ≤ 0xE0 + n / 4096 ∧ 0xE0 + n / 4096 < 0xE0) := by omega
    have c3 : 0xE0 ≤ 0xE0 + n / 4096 ∧ 0xE0 + n / 4096 < 0xF0 := by omega
    have c4 : 0x80 ≤ 0x80 + n / 64 % 64 ∧ 0x80 + n / 64 % 64 < 0xC0 := by omega
    have c5 : 0x80 ≤ 0x80 + n % 64 ∧ 0x80 + n % 64 < 0xC0 := by omega
    simp [utf8DecodeOne, c1, c2, c3, c4, c5]
    omega
  · have c1 : ¬(0xF0 + n / 262144 < 0x80) := by omega
    have c2 : ¬(0xC0 ≤ 0xF0 + n / 262144 ∧ 0xF0 + n / 262144 < 0xE0) := by omega
    have c3 : ¬(0xE0 ≤ 0xF0 + n / 262144 ∧ 0xF0 + n / 262144 < 0xF0) := by omega
    have c4 : 0xF0 ≤ 0xF0 + n / 262144 ∧ 0xF0 + n / 262144 < 0xF8 := by omega
    have c5 : 0x80 ≤ 0x80 + n / 4096 % 64 ∧ 0x80 + n / 4096 % 64 < 0xC0 := by omega
    have c6 : 0x80 ≤ 0x80 + n / 64 % 64 ∧ 0x80 + n / 64 % 64 < 0xC0 := by omega
    have c7 : 0x80 ≤ 0x80 + n % 64 ∧ 0x80 + n % 64 < 0xC0 := by omega
    simp [utf8DecodeOne, c1, c2, c3, c4, c5, c6, c7]
    omega

theorem utf8DecodeFuel_encode (cs : List Char) : ∀ fuel : Nat,
    ((cs.map (fun c => utf8Bytes c.toNat)).flatten).length ≤ fuel →
    utf8DecodeFuel fuel ((cs.map (fun c => utf8Bytes c.toNat)).flatten) = cs := by
  induction cs with
  | nil =>
    intro fuel _
    cases fuel with
    | zero => rfl
    | succ f => rfl
  | cons c cs ih =>
    intro fuel hf
    simp only [List.map_cons, List.flatten_cons] at hf ⊢
    have hlen1 : 1 ≤ (utf8Bytes c.toNat).length := by
      rcases hb : utf8Bytes c.toNat with _ | ⟨b, bs⟩
      · exact absurd hb (utf8Bytes_ne_nil c.toNat)
      · simp
    rw [List.length_append] at hf
    cases fuel with
    | zero => omega
    | succ f =>
      simp only [utf8DecodeFuel]
      rw [utf8DecodeOne_utf8Bytes c.toNat (char_toNat_lt c)]
      simp only [Char.ofNat_toNat]
      congr 1
      exact ih f (by omega)

theorem hexDigitVal_hexDigitChar (m : Nat) (hm : m < 16) :
    hexDigitVal (hexDigitChar m) = some m := by
  interval_cases m <;> decide

theorem hexDigitChar_not_sep (m : Nat) (hm : m < 16) :
    hexDigitChar m ≠ '&' ∧ hexDigitChar m ≠ '=' := by
  interval_cases m <;> decide

theorem isFormUnencoded_props (c : Char) (h : isFormUnencoded c = true) :
    c ≠ '+' ∧ c ≠ '%' ∧ c ≠ '&' ∧ c ≠ '=' := by
  refine ⟨?_, ?_, ?_, ?_⟩ <;> rintro rfl <;> revert h <;> decide

theorem formCharsToBytes_percent (bs : List Nat) (hbs : ∀ b ∈ bs, b < 256)
    (tail : List Char) :
    formCharsToBytes ((bs.map percentByte).flatten ++ tail) =
      bs ++ formCharsToBytes tail := by
  induction bs with
  | nil => simp
  | cons b bs ih =>
    have hb : b < 256 := hbs b (List.mem_cons_self b bs)
    have h1 : hexDigitVal (hexDigitChar (b / 16)) = some (b / 16) :=
      hexDigitVal_hexDigitChar _ (by omega)
    have h2 : hexDigitVal (hexDigitChar (b % 16)) = some (b % 16) :=
      hexDigitVal_hexDigitChar _ (by omega)
    simp only [List.map_cons, List.flatten_cons, percentByte, List.append_assoc,
      List.cons_append, List.nil_append]
    simp only [formCharsToBytes, h1, h2]
    rw [ih (fun b' hb' => hbs b' (List.mem_cons_of_mem _ hb'))]
    congr 1
    omega

theorem formCharsToBytes_plus (tail : List Char) :
    formCharsToBytes ('+' :: tail) = 32 :: formCharsToBytes tail := by
  conv_lhs => unfold formCharsToBytes
  simp

theorem formCharsToBytes_other (c : Char) (tail : List Char)
    (hp : ¬ c = '+') (hpc : ¬ c = '%') :
    formCharsToBytes (c :: tail) = utf8Bytes c.toNat ++ formCharsToBytes tail := by
  conv_lhs => unfold formCharsToBytes
  simp [hp, hpc]

theorem formCharsToBytes_encodeChar (c : Char) (tail : List Char) :
    formCharsToBytes (encodeFormChar c ++ tail) =
      utf8Bytes c.toNat ++ formCharsToBytes tail := by
  unfold encodeFormChar
  split_ifs with h1 h2
  · subst h1
    rw [show ((['+'] : List Char) ++ tail) = '+' :: tail from rfl]
    rw [formCharsToBytes_plus]
    rw [show utf8Bytes ((' ' : Char).toNat) = [32] from by decide]
    rfl
  · obtain ⟨hp, hpc, _, _⟩ := isFormUnencoded_props c h2
    rw [show (([c] : List Char) ++ tail) = c :: tail from rfl]
    exact formCharsToBytes_other c tail hp hpc
  · exact formCharsToBytes_percent (utf8Bytes c.toNat)
      (utf8Bytes_lt_256 c.toNat (char_toNat_lt c)) tail

theorem formCharsToBytes_encode (cs : List Char) (tail : List Char) :
    formCharsToBytes ((cs.map encodeFormChar).flatten ++ tail) =
      (cs.map (fun c => utf8Bytes c.toNat)).flatten ++ formCharsToBytes tail := by
  induction cs with
  | nil => simp
  | cons c cs ih =>
    simp only [List.map_cons, List.flatten_cons, List.append_assoc]
    rw [formCharsToBytes_encodeChar, ih]

theorem formCharsToBytes_nil : formCharsToBytes [] = [] := by
  simp [formCharsToBytes]

theorem urlDecode_urlEncode (s : String) : urlDecodeStr (urlEncodeStr s) = s := by
  apply string_eq_of_data
  show utf8DecodeBytes (formCharsToBytes (s.data.map encodeFormChar).flatten) = s.data
  have h9 := formCharsToBytes_encode s.data []
  rw [formCharsToBytes_nil, List.append_nil, List.append_nil] at h9
  rw [h9]
  exact utf8DecodeFuel_encode s.data _ (le_refl _)

theorem encodeFormChar_no_sep (c0 : Char) :
    ∀ c ∈ encodeFormChar c0, c ≠ '&' ∧ c ≠ '=' := by
  intro c hc
  unfold encodeFormChar at hc
  split_ifs at hc with h1 h2
  · simp at hc
    subst hc
    decide
  · simp at hc
    subst hc
    obtain ⟨_, _, h3, h4⟩ := isFormUnencoded_props c h2
    exact ⟨h3, h4⟩
  · simp only [List.mem_flatten, List.mem_map] at hc
    obtain ⟨l, ⟨b, hb, rfl⟩, hcl⟩ := hc
    have hb256 : b < 256 := utf8Bytes_lt_256 c0.toNat (char_toNat_lt c0) b hb
    simp only [percentByte, List.mem_cons] at hcl
    rcases hcl with rfl | rfl | rfl | h
    · decide
    · exact hexDigitChar_not_sep _ (by omega)
    · exact hexDigitChar_not_sep _ (by omega)
    · simp at h

theorem urlEncodeStr_no_sep (s : String) :
    ∀ c ∈ (urlEncodeStr s).data, c ≠ '&' ∧ c ≠ '=' := by
  intro c hc
  have hm : c ∈ (s.data.map encodeFormChar).flatten := hc
  simp only [List.mem_flatten, List.mem_map] at hm
  obtain ⟨l, ⟨c0, _, rfl⟩, hcl⟩ := hm
  exact encodeFormChar_no_sep c0 c hcl

theorem splitFirstChar_append {d : Char} (a b : List Char) (ha : d ∉ a) :
    splitFirstChar d (a ++ d :: b) = (a, some b) := by
  induction a with
  | nil => simp [splitFirstChar]
  | cons c cs ih =>
    have hcd : ¬ c = d := fun h => ha (h ▸ List.mem_cons_self c cs)
    have ha2 : d ∉ cs := fun hm => ha (List.mem_cons_of_mem _ hm)
    simp [splitFirstChar, hcd, ih ha2]

theorem string_mk_data (s : String) : (⟨s.data⟩ : String) = s := rfl

theorem decodeFormPiece_encodeFormPair (kv : String × String) :
    decodeFormPiece (encodeFormPair kv) = kv := by
  unfold decodeFormPiece encodeFormPair
  rw [splitFirstChar_append _ _ (fun hm => (urlEncodeStr_no_sep kv.1 '=' hm).2 rfl)]
  simp only [Option.getD_some]
  rw [string_mk_data, string_mk_data, urlDecode_urlEncode, urlDecode_urlEncode]

theorem splitOnChar_ne_nil (d : Char) (cs : List Char) : splitOnChar d cs ≠ [] := by
  induction cs with
  | nil => simp [splitOnChar]
  | cons c cs ih =>
    rcases h0 : splitOnChar d cs with _ | ⟨piece, pieces⟩
    · exact absurd h0 ih
    · by_cases hc : c = d <;> simp [splitOnChar, h0, hc]

theorem splitOnChar_no_sep (d : Char) (p : List Char) (hp : d ∉ p) :
    splitOnChar d p = [p] := by
  induction p with
  | nil => rfl
  | cons c cs ih =>
    have hcd : ¬ c = d := fun h => hp (h ▸ List.mem_cons_self c cs)
    have hp2 : d ∉ cs := fun hm => hp (List.mem_cons_of_mem _ hm)
    simp [splitOnChar, ih hp2, hcd]

theorem splitOnChar_sep_append (d : Char) (p cs : List Char) (hp : d ∉ p) :
    splitOnChar d (p ++ d :: cs) = p :: splitOnChar d cs := by
  induction p with
  | nil =>
    rcases h0 : splitOnChar d cs with _ | ⟨piece, pieces⟩
    · exact absurd h0 (splitOnChar_ne_nil d cs)
    · simp [splitOnChar, h0]
  | cons c cs' ih =>
    have hcd : ¬ c = d := fun h => hp (h ▸ List.mem_cons_self c cs')
    have hp2 : d ∉ cs' := fun hm => hp (List.mem_cons_of_mem _ hm)
    show splitOnChar d (c :: (cs' ++ d :: cs)) = (c :: cs') :: splitOnChar d cs
    rcases h0 : splitOnChar d (cs' ++ d :: cs) with _ | ⟨piece, pieces⟩
    · exact absurd h0 (splitOnChar_ne_nil d _)
    · have hih := ih hp2
      rw [h0] at hih
      simp only [splitOnChar, h0, hcd, if_false]
      injection hih with hih1 hih2
      rw [hih1, hih2]

theorem splitOnChar_joinWithChar (d : Char) :
    ∀ pieces : List (List Char), pieces ≠ [] → (∀ p ∈ pieces, d ∉ p) →
    splitOnChar d (joinWithChar d pieces) = pieces := by
  intro pieces
  induction pieces with
  | nil => intro h; exact absurd rfl h
  | cons p ps ih =>
    intro _ hall
    cases ps with
    | nil =>
      rw [show joinWithChar d [p] = p from rfl]
      exact splitOnChar_no_sep d p (hall p (List.mem_cons_self p []))
    | cons q qs =>
      rw [show joinWithChar d (p :: q :: qs) = p ++ d :: joinWithChar d (q :: qs)
        from rfl]
      rw [splitOnChar_sep_append d p _ (hall p (List.mem_cons_self p _))]
      rw [ih (by simp) (fun x hx => hall x (List.mem_cons_of_mem _ hx))]

theorem encodeFormPair_ne_nil (kv : String × String) : encodeFormPair kv ≠ [] := by
  unfold encodeFormPair
  simp

theorem encodeFormPair_no_amp (kv : String × String) : '&' ∉ encodeFormPair kv := by
  unfold encodeFormPair
  intro hm
  rcases List.mem_append.mp hm with h | h
  · exact (urlEncodeStr_no_sep kv.1 '&' h).1 rfl
  · rcases List.mem_cons.mp h with h2 | h2
    · exact absurd h2 (by decide)
    · exact (urlEncodeStr_no_sep kv.2 '&' h2).1 rfl

theorem decodeFormBody_encodeFormPairs (pairs : List (String × String)) :
    decodeFormBody (encodeFormPairs pairs) = pairs := by
  cases pairs with
  | nil => rfl
  | cons kv kvs =>
    unfold decodeFormBody encodeFormPairs
    rw [show (⟨joinWithChar '&' (List.map encodeFormPair (kv :: kvs))⟩ : String).data
      = joinWithChar '&' (List.map encodeFormPair (kv :: kvs)) from rfl]
    have hfree : ∀ p ∈ List.map encodeFormPair (kv :: kvs), '&' ∉ p := by
      intro p hp
      simp only [List.mem_map] at hp
      obtain ⟨kv', _, rfl⟩ := hp
      exact encodeFormPair_no_amp kv'
    rw [splitOnChar_joinWithChar '&' _ (by simp) hfree]
    have hne : ∀ p ∈ List.map encodeFormPair (kv :: kvs), (p ≠ []) = True := by
      intro p hp
      simp only [List.mem_map] at hp
      obtain ⟨kv', _, rfl⟩ := hp
      simpa using encodeFormPair_ne_nil kv'
    rw [List.filter_eq_self.mpr (by intro a ha; simpa using hne a ha)]
    rw [List.map_map]
    have hcomp : (decodeFormPiece ∘ encodeFormPair) =
        (id : String × String → String × String) := by
      funext kv'
      simp [decodeFormPiece_encodeFormPair]
    rw [hcomp, List.map_id]

/-- C9: encoding a flat parameter record to a URL-encoded form body —
skipping entries whose value is null/undefined and stringifying numbers,
exactly as the `formData.append` loop of `callAPI` does — and then
decoding that body the way `URLSearchParams` parsing does yields exactly
the non-nullish entries of the input with their values stringified. -/
theorem formBody_roundtrip (params : List (String × ParamValue)) :
    decodeFormBody (encodeFormPairs (encodeRequestParams params)) =
      params.filterMap (fun kv =>
        match kv.2 with
        | ParamValue.nullish => none
        | v => some (kv.1, paramToString v)) :=
  decodeFormBody_encodeFormPairs (encodeRequestParams params)

-- ============================================
-- API caller error contract (C8)
-- ============================================

/-- C8: `callAPI` (shared verbatim by `requestPayment`, `cancelPayment`
and every other operation) fails with a coded error exactly when the
transport reports a non-ok HTTP status (code = the status) or the parsed
response's `state` field equals `"0"` (code = `"0"`); any other exception
from the network call is wrapped with code `"UNKNOWN"`; otherwise the
parsed response record is returned. -/
theorem callAPI_error_contract :
    (∀ params m, callAPI params (FetchOutcome.networkError m) =
      Except.error (createError m "UNKNOWN")) ∧
    (∀ params status text, responseOk status = false →
      callAPI params (FetchOutcome.response status text) =
        Except.error (createError ("HTTP error! status: " ++ toString status)
          (toString status))) ∧
    (∀ params status text, responseOk status = true →
      jsGet (parseResponse text) "state" = some "0" →
      callAPI params (FetchOutcome.response status text) =
        Except.error (createError
          (jsOrDefault (jsGet (parseResponse text) "errorMessage")
            "PayApp API error") "0")) ∧
    (∀ params status text, responseOk status = true →
      jsGet (parseResponse text) "state" ≠ some "0" →
      callAPI params (FetchOutcome.response status text) =
        Except.ok (parseResponse text)) ∧
    (∀ credentials params transport,
      requestPayment credentials params transport =
        callAPI (objMerge [("cmd", ParamValue.str "payrequest"),
          ("userid", ParamValue.str credentials.userid)] params) transport) ∧
    (∀ credentials params transport,
      cancelPayment credentials params transport =
        callAPI (objMerge [("cmd", ParamValue.str "paycancel"),
          ("userid", ParamValue.str credentials.userid),
          ("linkkey", ParamValue.str credentials.linkkey)] params) transport) := by
  refine ⟨fun params m => rfl, ?_, ?_, ?_, fun _ _ _ => rfl, fun _ _ _ => rfl⟩
  · intro params status text hok
    simp only [callAPI, callAPITry, hok]
    rfl
  · intro params status text hok hstate
    simp only [callAPI, callAPITry, hok, hstate, if_pos]
    rfl
  · intro params status text hok hstate
    simp only [callAPI, callAPITry, hok]
    rw [if_neg (by simp), if_neg hstate]

/-- Witness for `callAPI_error_contract` at concrete transports. -/
theorem callAPI_error_contract_witness :
    callAPI [] (FetchOutcome.networkError "fetch failed") =
      Except.error (createError "fetch failed" "UNKNOWN") ∧
    callAPI [] (FetchOutcome.response 500 "") =
      Except.error (createError ("HTTP error! status: " ++ toString 500)
        (toString 500)) ∧
    callAPI [] (FetchOutcome.response 200 "state=0&errorMessage=bad") =
      Except.error (createError
        (jsOrDefault (jsGet (parseResponse "state=0&errorMessage=bad")
          "errorMessage") "PayApp API error") "0") ∧
    callAPI [] (FetchOutcome.response 200 "state=1&mul_no=77") =
      Except.ok (parseResponse "state=1&mul_no=77") :=
  ⟨callAPI_error_contract.1 [] "fetch failed",
   callAPI_error_contract.2.1 [] 500 "" (by decide),
   callAPI_error_contract.2.2.1 [] 200 "state=0&errorMessage=bad"
     (by decide) (by decide),
   callAPI_error_contract.2.2.2.1 [] 200 "state=1&mul_no=77"
     (by decide) (by decide)⟩

-- ============================================
-- Webhook endpoint HTTP contract (C7)
-- ============================================

/-- C7 (amended): the handler returned by `createWebhookHandler` answers
405 to any non-POST request and 400 to a POST without a
`application/x-www-form-urlencoded` content type; in every other case —
success, duplicate, credential failure, or a throwing event handler — it
answers HTTP 200 with body exactly `"SUCCESS"` or `"ERROR"`, provided a
registered `onError` callback does not itself throw (a throwing `onError`
escapes both `process` and the handler's own catch — see the
counterexample). -/
theorem webhookHandler_http_contract (credentials : PayAppCredentials)
    (handlers : WebhookHandler) (keys : List String) (req : HttpRequest)
    (hnt : onErrorNoThrow handlers) :
    (req.method ≠ "POST" →
      (handleWebhookRequest credentials handlers keys req).1 =
        TsOutcome.returned ⟨405, "Method not allowed"⟩) ∧
    (req.method = "POST" → requestContentTypeOk req = false →
      (handleWebhookRequest credentials handlers keys req).1 =
        TsOutcome.returned ⟨400, "Invalid content type"⟩) ∧
    (req.method = "POST" → requestContentTypeOk req = true →
      ((handleWebhookRequest credentials handlers keys req).1 =
          TsOutcome.returned ⟨200, "SUCCESS"⟩ ∨
        (handleWebhookRequest credentials handlers keys req).1 =
          TsOutcome.returned ⟨200, "ERROR"⟩)) := by
  refine ⟨?_, ?_, ?_⟩
  · intro hm
    unfold handleWebhookRequest
    rw [if_pos hm]
  · intro hm hct
    unfold handleWebhookRequest
    rw [if_neg (by simp [hm]), if_pos (by simp [hct])]
  · intro hm hct
    simp only [handleWebhookRequest]
    rw [if_neg (by simp [hm]), if_neg (by simp [hct])]
    rcases process_outcome_noThrow ⟨credentials, keys⟩
      (parseWebhookRequest (decodeFormBody req.body)) handlers hnt with hro | hro <;>
      rw [hro] <;> simp

/-- Witness for `webhookHandler_http_contract`: a GET is answered 405, and
a well-formed POST is answered 200 with `"SUCCESS"` or `"ERROR"`. -/
theorem webhookHandler_http_contract_witness :
    (handleWebhookRequest sampleCredentials noHandlers []
      ⟨"GET", none, ""⟩).1 = TsOutcome.returned ⟨405, "Method not allowed"⟩ ∧
    ((handleWebhookRequest sampleCredentials noHandlers []
        ⟨"POST", some "application/x-www-form-urlencoded", ""⟩).1 =
          TsOutcome.returned ⟨200, "SUCCESS"⟩ ∨
      (handleWebhookRequest sampleCredentials noHandlers []
        ⟨"POST", some "application/x-www-form-urlencoded", ""⟩).1 =
          TsOutcome.returned ⟨200, "ERROR"⟩) :=
  ⟨(webhookHandler_http_contract sampleCredentials noHandlers []
      ⟨"GET", none, ""⟩ (fun g hg => by simp [noHandlers] at hg)).1 (by decide),
   (webhookHandler_http_contract sampleCredentials noHandlers []
      ⟨"POST", some "application/x-www-form-urlencoded", ""⟩
      (fun g hg => by simp [noHandlers] at hg)).2.2 (by decide) (by decide)⟩

/-- Counterexample to C7 as stated: on a POST whose body fails credential
validation, a registered `onError` that throws makes the exception escape
`process`; the handler's outer catch calls `onError` again, which throws
again, so no HTTP response is produced at all. -/
theorem webhookHandler_http_contract_counterexample :
    (handleWebhookRequest sampleCredentials throwingOnErrorHandlers []
      ⟨"POST", some "application/x-www-form-urlencoded", ""⟩).1 =
      TsOutcome.threw "onError boom" := by
  rfl
